import Mathlib

/-!
Verification of the catalog-preparation pipeline in
`galquench/utils/illustris_load.py`.

The Python functions operate on numpy arrays and Python dictionaries.  The
shallow embedding below models:
  * a numpy floating value as `RVal` (a rational number or the NaN sentinel);
  * a 1-D numpy array as a `List RVal` together with a `Dtype` tag
    (`NArr`), since the only dtype distinction the code exercises is
    whether the dtype can represent NaN;
  * a Python dict as an association list with Python's `dict` semantics:
    lookup returns the (unique) binding, `update` replaces a binding in
    place keeping insertion order or appends a fresh one at the end,
    `pop` removes the binding;
  * a fallible Python call as `Except PyError`.
-/

namespace Galquench

/-- A numpy floating-point value: either the NaN sentinel or a number
(modelled as a rational; the code performs no operation that
distinguishes rationals from IEEE doubles other than NaN handling). -/
inductive RVal where
  | nan : RVal
  | num (q : ℚ) : RVal
  deriving DecidableEq

/-- The dtype distinction the code exercises: floating dtypes can hold the
NaN sentinel, integer dtypes cannot. -/
inductive Dtype where
  | dfloat : Dtype
  | dint : Dtype
  deriving DecidableEq

/-- A 1-D numpy array: a dtype tag plus its values. -/
structure NArr where
  dtype : Dtype
  data : List RVal
  deriving DecidableEq

/-- The Python exception kinds the embedded functions raise. -/
inductive PyError where
  | typeError (msg : String) : PyError
  | valueError (msg : String) : PyError
  | runtimeError (msg : String) : PyError
  | nameError (msg : String) : PyError
  | indexError (msg : String) : PyError
  | keyError (msg : String) : PyError
  deriving DecidableEq

instance {ε α : Type} [DecidableEq ε] [DecidableEq α] : DecidableEq (Except ε α) :=
  fun a b =>
    match a, b with
    | .error e, .error f => decidable_of_iff (e = f) (by simp)
    | .error _, .ok _ => .isFalse (by simp)
    | .ok _, .error _ => .isFalse (by simp)
    | .ok x, .ok y => decidable_of_iff (x = y) (by simp)

/-- `nthD d l n` is element `n` of `l`, or the default `d` out of range
(used for numpy element access where bounds are known separately). -/
def nthD {α : Type} (d : α) : List α → Nat → α
  | [], _ => d
  | x :: _, 0 => x
  | _ :: xs, n + 1 => nthD d xs n

/-- Python `dict` lookup on the association-list model. -/
def dictLookup {α : Type} : List (String × α) → String → Option α
  | [], _ => none
  | (k, v) :: rest, key => if k = key then some v else dictLookup rest key

/-- Python `dict.update` with a single binding: replace in place (keeping
insertion order) when the key exists, else append at the end. -/
def dictUpdate {α : Type} : List (String × α) → String → α → List (String × α)
  | [], key, v => [(key, v)]
  | (k, w) :: rest, key, v =>
      if k = key then (key, v) :: rest else (k, w) :: dictUpdate rest key v

/-- Python `dict.pop`: remove the binding of the key. -/
def dictPop {α : Type} : List (String × α) → String → List (String × α)
  | [], _ => []
  | (k, w) :: rest, key => if k = key then rest else (k, w) :: dictPop rest key

/-!
## Merger — `merge_subhalos_with_supplementary` (source lines 150–187)

The Python function pops `count` from the `subhalos` dict (ValueError when
absent), then collects every `(key, value.dtype.type)` pair of
`[subhalos] + supplementary_catalogs` into one numpy dtype specification
and calls `numpy.full(N, numpy.nan, dtype=dtype)`.  numpy rejects a
structured dtype in which a field name occurs more than once
(ValueError), and filling a structured template with the scalar NaN
requires every format to be a floating type.  When the template is built,
each field is assigned its catalog's array, which must have length `N`.
-/

/-- The `subhalos` dictionary of the merger: the optional `count` entry
(popped with default `None` on line 173) plus the data fields. -/
structure Subhalos where
  count : Option Nat
  fields : List (String × NArr)
  deriving DecidableEq

/-- `merge_subhalos_with_supplementary` (lines 150–187). -/
def merge_subhalos_with_supplementary (subhalos : Subhalos)
    (supplementary_catalogs : List (List (String × NArr))) :
    Except PyError (List (String × List RVal)) :=
  match subhalos.count with
  | none => .error (.valueError "Subhaloes must contain key count.")
  | some N =>
    let cats := subhalos.fields :: supplementary_catalogs
    let names := (cats.map (List.map Prod.fst)).flatten
    if names.Nodup then
      if (cats.flatten).all (fun p => p.2.dtype = Dtype.dfloat) then
        if (cats.flatten).all (fun p => p.2.data.length = N) then
          .ok ((cats.flatten).map (fun p => (p.1, p.2.data)))
        else .error (.valueError "could not broadcast input array")
      else .error (.valueError "cannot convert float NaN to integer")
    else .error (.valueError "field occurs more than once")

/-!
## Unit Normalizer — `apply_multiplicative_units` (source lines 190–209)

For every field name and every `(unit, factor)` pair of the units table,
when `unit.lower()` occurs as a substring of `name.lower()` the field is
multiplied in place by the factor (`array[name] *= factor`).
-/

/-- Whether the character list `needle` is an initial segment of `hay`. -/
def charsStartWith : List Char → List Char → Bool
  | [], _ => true
  | n :: ns, hay =>
    match hay with
    | [] => false
    | h :: hs => n = h && charsStartWith ns hs

/-- Whether the character list `needle` occurs inside `hay`. -/
def charsContain (needle : List Char) : List Char → Bool
  | [] => charsStartWith needle []
  | b :: bs => charsStartWith needle (b :: bs) || charsContain needle bs

/-- Python `str.lower` on one character (field names are ASCII). -/
def lowerChar (c : Char) : Char :=
  if 65 ≤ c.toNat ∧ c.toNat ≤ 90 then Char.ofNat (c.toNat + 32) else c

/-- Python `unit.lower() in name.lower()`: case-insensitive substring. -/
def substrCI (unit name : String) : Bool :=
  charsContain (unit.toList.map lowerChar) (name.toList.map lowerChar)

/-- numpy `value * factor` on one element: NaN times anything is NaN. -/
def rmul (factor : ℚ) : RVal → RVal
  | .nan => .nan
  | .num q => .num (q * factor)

/-- One field of `apply_multiplicative_units`: the inner loop over the
units table in order, multiplying on every case-insensitive match. -/
def applyUnitsField (units : List (String × ℚ)) (name : String)
    (xs : List RVal) : List RVal :=
  units.foldl (fun ys u => if substrCI u.1 name then ys.map (rmul u.2) else ys) xs

/-- `apply_multiplicative_units` (lines 190–209).  The warning emitted per
match is an informational side channel and is not modelled. -/
def apply_multiplicative_units (array : List (String × List RVal))
    (units : List (String × ℚ)) : List (String × List RVal) :=
  array.map (fun p => (p.1, applyUnitsField units p.1 p.2))

/-- The product of the factors of all units-table entries matching a field
name (specification-side summary of which factors hit a field). -/
def matchedProduct (units : List (String × ℚ)) (name : String) : ℚ :=
  ((units.filter (fun u => substrCI u.1 name)).map Prod.snd).prod

/-!
## Selector — `apply_selection` (source lines 212–250)

For every `(par, lims)` of the selection dict, in order: raise a TypeError
naming `par` unless `lims` is a list/tuple of length 2 (this check comes
before the `array[par]` lookup), then build the boolean mask
`(lower < array[par]) & (array[par] < upper)` — numpy comparisons with
NaN are false.  With `only_finite` the per-field `numpy.isfinite` masks
are appended.  `final_mask = masks[0]` raises an IndexError when the mask
list is empty; the remaining masks are AND-ed in and the array is filtered
by boolean indexing.  The removed-count warning is not modelled.
-/

/-- One value of the selection dict: a Python list/tuple of numbers, or a
scalar (not a sequence). -/
inductive LimSpec where
  | seq (xs : List ℚ) : LimSpec
  | scalar (q : ℚ) : LimSpec
  deriving DecidableEq

/-- numpy `lower < x` on one element: comparison with NaN is false. -/
def ltLo (lower : ℚ) : RVal → Bool
  | .nan => false
  | .num q => decide (lower < q)

/-- numpy `x < upper` on one element: comparison with NaN is false. -/
def ltHi (upper : ℚ) : RVal → Bool
  | .nan => false
  | .num q => decide (q < upper)

/-- The per-record test of one selection entry: `lower < x < upper`. -/
def rangeKeep (lower upper : ℚ) (x : RVal) : Bool :=
  ltLo lower x && ltHi upper x

/-- `numpy.isfinite`: false exactly on the NaN sentinel. -/
def isFiniteB : RVal → Bool
  | .nan => false
  | .num _ => true

/-- The first loop of `apply_selection` (lines 229–236), building one mask
per selection entry in order.  The malformed-`lims` TypeError is raised
before the field lookup, as in the source. -/
def buildMasks (array : List (String × List RVal)) :
    List (String × LimSpec) → Except PyError (List (List Bool))
  | [] => .ok []
  | (par, lims) :: rest =>
    match lims with
    | .seq [lower, upper] =>
      match dictLookup array par with
      | none => .error (.keyError par)
      | some xs =>
        match buildMasks array rest with
        | .error e => .error e
        | .ok ms => .ok (xs.map (rangeKeep lower upper) :: ms)
    | _ => .error (.typeError ("lims of parameter " ++ par ++
             " must be a list or tuple of length 2"))

/-- Elementwise numpy `&` of two boolean masks (the pipeline only AND-s
masks of equal length, the record-array invariant). -/
def andMask : List Bool → List Bool → List Bool
  | [], _ => []
  | _ :: _, [] => []
  | a :: as, b :: bs => (a && b) :: andMask as bs

/-- numpy boolean indexing of one field by the final mask. -/
def boolFilter : List RVal → List Bool → List RVal
  | [], _ => []
  | _ :: _, [] => []
  | x :: xs, b :: bs => if b then x :: boolFilter xs bs else boolFilter xs bs

/-- `apply_selection` (lines 212–250). -/
def apply_selection (array : List (String × List RVal))
    (selection : List (String × LimSpec)) (only_finite : Bool) :
    Except PyError (List (String × List RVal)) :=
  match buildMasks array selection with
  | .error e => .error e
  | .ok ms =>
    let masks := if only_finite
      then ms ++ array.map (fun p => p.2.map isFiniteB) else ms
    match masks with
    | [] => .error (.indexError "list index out of range")
    | m0 :: rest =>
        .ok (array.map (fun p => (p.1, boolFilter p.2 (rest.foldl andMask m0))))

/-- Specification-side reading of one selection entry at record `i`:
the strict two-sided bound test on that record's value of the field. -/
def entryKeep (array : List (String × List RVal)) (i : Nat) :
    String × LimSpec → Bool
  | (par, .seq [lower, upper]) =>
    match dictLookup array par with
    | some xs => rangeKeep lower upper (nthD .nan xs i)
    | none => false
  | _ => false

/-- The mask `buildMasks` produces for one well-formed selection entry. -/
def maskOf (array : List (String × List RVal)) : String × LimSpec → List Bool
  | (par, .seq [lower, upper]) =>
    match dictLookup array par with
    | some xs => xs.map (rangeKeep lower upper)
    | none => []
  | _ => []

/-!
## Index Aligner — `match_subfind` (source lines 109–147)

For every catalog and every non-identifier field: allocate
`numpy.full(N, fill_value=numpy.nan, dtype=data.dtype)` — an integer
dtype cannot represent NaN, so numpy raises a ValueError there — then
scatter `full[catalog["subfindID"]] = data` (sequential writes, the last
occurrence of a repeated index wins, an out-of-range index is an
IndexError), and store the result back under the same key.  Afterwards
the `subfindID` column is dropped.  The claims only exercise non-negative
identifiers, so indices are modelled as naturals.
-/

/-- A supplementary catalog as consumed by `match_subfind`: the integer
`subfindID` column (coerced to int by `read_supplementary` and used as
indices) kept apart from the data fields it is skipped over. -/
structure SupCatalog where
  subfindID : List Nat
  fields : List (String × NArr)
  deriving DecidableEq

/-- `numpy.full(N, fill_value=numpy.nan, dtype=dtype)` (line 141). -/
def numpyFullNan (N : Nat) : Dtype → Except PyError (List RVal)
  | .dfloat => .ok (List.replicate N RVal.nan)
  | .dint => .error (.valueError "cannot convert float NaN to integer")

/-- The scatter assignment `full[ids] = data` (line 142) in the
equal-length case: elementwise sequential writes (a repeated index keeps
the last value); an index beyond the array is an IndexError and
mismatched lengths are a broadcast error. -/
def scatter (full : List RVal) : List Nat → List RVal → Except PyError (List RVal)
  | [], [] => .ok full
  | idx :: ids, v :: vs =>
      if idx < full.length then scatter (full.set idx v) ids vs
      else .error (.indexError "index out of bounds")
  | _, _ => .error (.valueError "shape mismatch")

/-- The total scatter on in-range indices (companion of `scatter`). -/
def scatterT (full : List RVal) : List Nat → List RVal → List RVal
  | [], _ => full
  | _ :: _, [] => full
  | idx :: ids, v :: vs => scatterT (full.set idx v) ids vs

/-- Alignment of a single field (lines 140–143). -/
def matchField (N : Nat) (ids : List Nat) (a : NArr) : Except PyError NArr :=
  match numpyFullNan N a.dtype with
  | .error e => .error e
  | .ok full =>
    match scatter full ids a.data with
    | .error e => .error e
    | .ok full2 => .ok ⟨a.dtype, full2⟩

/-- The loop over one catalog's non-identifier fields (lines 133–143);
`update` replaces each value in place, preserving key order. -/
def matchFields (N : Nat) (ids : List Nat) :
    List (String × NArr) → Except PyError (List (String × NArr))
  | [] => .ok []
  | (k, a) :: rest =>
    match matchField N ids a with
    | .error e => .error e
    | .ok a2 =>
      match matchFields N ids rest with
      | .error e => .error e
      | .ok rest2 => .ok ((k, a2) :: rest2)

/-- `match_subfind` (lines 109–147): align every catalog's fields, then
drop the `subfindID` column (already kept apart here). -/
def match_subfind : List SupCatalog → Nat → Except PyError (List (List (String × NArr)))
  | [], _ => .ok []
  | c :: cs, N =>
    match matchFields N c.subfindID c.fields with
    | .error e => .error e
    | .ok f =>
      match match_subfind cs N with
      | .error e => .error e
      | .ok rest => .ok (f :: rest)

/-!
## Column Unpacker — `unpack_catalog_columns` (source lines 85–106)

For every key of the catalog except `count` and `subfindID`, in order: a
non-array value is a TypeError; a 1-D array is left untouched; a 2-D
array requires a column-mapping entry (RuntimeError when absent).  When
the entry is not a list or tuple the normalisation line `cols = [cols]`
reads the never-defined name `cols` and raises a NameError.  Otherwise
the field is popped and, for each listed column, `data[:, column]` is
stored under the name `field + "_{}".format(column)`.
-/

/-- A value of the catalog dict as seen by `unpack_catalog_columns`: a
1-D array, a 2-D array (list of rows), or a non-array value. -/
inductive CatValue where
  | arr1 (xs : List RVal) : CatValue
  | arr2 (rows : List (List RVal)) : CatValue
  | nonarray : CatValue
  deriving DecidableEq

/-- A value of the column mapping: a list/tuple of column indices, or a
single index (not a sequence). -/
inductive ColSpec where
  | lst (cs : List Nat) : ColSpec
  | single (c : Nat) : ColSpec
  deriving DecidableEq

/-- The name `field + "_{}".format(column)` (line 105). -/
def genName (field : String) (c : Nat) : String :=
  field ++ "_" ++ toString c

/-- numpy `data[:, column]` on the row-list model of a 2-D array. -/
def getCol (rows : List (List RVal)) (c : Nat) : Except PyError (List RVal) :=
  if rows.all (fun r => c < r.length) then
    .ok (rows.map (fun r => nthD RVal.nan r c))
  else .error (.indexError "index out of bounds")

/-- The inner loop over the mapped columns (lines 104–105): each column
is written back under its generated name. -/
def addCols (field : String) (rows : List (List RVal)) :
    List (String × CatValue) → List Nat → Except PyError (List (String × CatValue))
  | cat, [] => .ok cat
  | cat, c :: cs =>
    match getCol rows c with
    | .error e => .error e
    | .ok v => addCols field rows (dictUpdate cat (genName field c) (.arr1 v)) cs

/-- The body of the loop for one snapshot field (lines 88–105). -/
def unpackStep (column_mapping : List (String × ColSpec))
    (catalog : List (String × CatValue)) (field : String) :
    Except PyError (List (String × CatValue)) :=
  match dictLookup catalog field with
  | none => .error (.keyError field)
  | some .nonarray =>
      .error (.typeError ("Field " ++ field ++ " is not an array."))
  | some (.arr1 _) => .ok catalog
  | some (.arr2 rows) =>
    match dictLookup column_mapping field with
    | none =>
        .error (.runtimeError ("Column information for field " ++ field ++ " required."))
    | some (.single _) => .error (.nameError "name cols is not defined")
    | some (.lst cs) => addCols field rows (dictPop catalog field) cs

/-- The loop over the snapshot of field names (lines 86–105). -/
def unpackFold (column_mapping : List (String × ColSpec)) :
    List String → List (String × CatValue) → Except PyError (List (String × CatValue))
  | [], catalog => .ok catalog
  | f :: fs, catalog =>
    match unpackStep column_mapping catalog f with
    | .error e => .error e
    | .ok catalog2 => unpackFold column_mapping fs catalog2

/-- The snapshot `fields` list (lines 86–87): every key except `count`
and `subfindID`. -/
def catFields (catalog : List (String × CatValue)) : List String :=
  (catalog.map Prod.fst).filter (fun k => !(k == "count" || k == "subfindID"))

/-- `unpack_catalog_columns` (lines 85–106). -/
def unpack_catalog_columns (catalog : List (String × CatValue))
    (column_mapping : List (String × ColSpec)) :
    Except PyError (List (String × CatValue)) :=
  unpackFold column_mapping (catFields catalog) catalog

/-- The generated names of one field's column-mapping entry. -/
def cmGen (column_mapping : List (String × ColSpec)) (f : String) : List String :=
  match dictLookup column_mapping f with
  | some (.lst cs) => cs.map (genName f)
  | _ => []

/-- All names the unpacker can generate for a snapshot list of fields. -/
def allGen (column_mapping : List (String × ColSpec)) (S : List String) : List String :=
  (S.map (cmGen column_mapping)).flatten


theorem rmul_one (x : RVal) : rmul 1 x = x := by
  cases x <;> simp [rmul]

theorem rmul_rmul (f g : ℚ) (x : RVal) : rmul g (rmul f x) = rmul (f * g) x := by
  cases x <;> simp [rmul, mul_assoc]

theorem matchedProduct_cons_match (u : String × ℚ) (us : List (String × ℚ))
    (name : String) (h : substrCI u.1 name = true) :
    matchedProduct (u :: us) name = u.2 * matchedProduct us name := by
  simp [matchedProduct, List.filter_cons, h]

theorem matchedProduct_cons_nomatch (u : String × ℚ) (us : List (String × ℚ))
    (name : String) (h : substrCI u.1 name = false) :
    matchedProduct (u :: us) name = matchedProduct us name := by
  simp [matchedProduct, List.filter_cons, h]

/-- Each field of the units pass ends up multiplied elementwise by the
product of the factors of exactly the matching entries of the table. -/
theorem applyUnitsField_eq (units : List (String × ℚ)) (name : String) :
    ∀ xs : List RVal,
      applyUnitsField units name xs = xs.map (rmul (matchedProduct units name)) := by
  induction units with
  | nil =>
      intro xs
      have h1 : xs.map (rmul (matchedProduct [] name)) = xs.map id :=
        List.map_congr_left (fun a _ => by simp [matchedProduct, rmul_one])
      simp only [h1, List.map_id]
      simp [applyUnitsField]
  | cons u us ih =>
      intro xs
      by_cases hc : substrCI u.1 name
      · have step : applyUnitsField (u :: us) name xs
            = applyUnitsField us name (xs.map (rmul u.2)) := by
          simp [applyUnitsField, hc]
        rw [step, ih, List.map_map, matchedProduct_cons_match u us name hc]
        exact List.map_congr_left (fun a _ => by
          simp only [Function.comp_apply]
          exact rmul_rmul u.2 (matchedProduct us name) a)
      · have step : applyUnitsField (u :: us) name xs = applyUnitsField us name xs := by
          simp [applyUnitsField, hc]
        rw [step, ih, matchedProduct_cons_nomatch u us name (by simpa using hc)]

theorem dictLookup_mem {α : Type} :
    ∀ (l : List (String × α)) (k : String) (v : α),
      dictLookup l k = some v → (k, v) ∈ l
  | [], _, _, h => by simp [dictLookup] at h
  | (k', w) :: rest, k, v, h => by
      by_cases hk : k' = k
      · subst hk
        simp [dictLookup] at h
        simp [h]
      · simp only [dictLookup, if_neg hk] at h
        exact List.mem_cons_of_mem _ (dictLookup_mem rest k v h)

theorem nthD_map_lt {α β : Type} (d : α) (d' : β) (f : α → β) :
    ∀ (xs : List α) (i : Nat), i < xs.length →
      nthD d' (xs.map f) i = f (nthD d xs i)
  | [], i, h => by simp at h
  | x :: xs, 0, _ => rfl
  | x :: xs, i + 1, h =>
      nthD_map_lt d d' f xs i (by simpa using h)

theorem nthD_andMask : ∀ (as bs : List Bool) (i : Nat),
    nthD false (andMask as bs) i = (nthD false as i && nthD false bs i)
  | [], bs, i => by cases bs <;> cases i <;> simp [andMask, nthD]
  | a :: as, [], i => by cases i <;> simp [andMask, nthD]
  | a :: as, b :: bs, 0 => by simp [andMask, nthD]
  | a :: as, b :: bs, i + 1 => by
      simp [andMask, nthD, nthD_andMask as bs i]

theorem length_andMask : ∀ (as bs : List Bool), as.length = bs.length →
    (andMask as bs).length = as.length
  | [], _, _ => rfl
  | a :: as, [], h => by simp at h
  | a :: as, b :: bs, h => by
      simp [andMask, length_andMask as bs (by simpa using h)]

theorem nthD_foldl_andMask : ∀ (ms : List (List Bool)) (m0 : List Bool) (i : Nat),
    nthD false (ms.foldl andMask m0) i
      = (nthD false m0 i && ms.all (fun m => nthD false m i))
  | [], m0, i => by simp
  | m :: ms, m0, i => by
      rw [List.foldl_cons, nthD_foldl_andMask ms (andMask m0 m) i, nthD_andMask]
      simp [Bool.and_assoc]

theorem length_foldl_andMask : ∀ (ms : List (List Bool)) (m0 : List Bool) (N : Nat),
    m0.length = N → (∀ m ∈ ms, m.length = N) →
    (ms.foldl andMask m0).length = N
  | [], m0, N, h0, _ => h0
  | m :: ms, m0, N, h0, hms => by
      rw [List.foldl_cons]
      refine length_foldl_andMask ms (andMask m0 m) N ?_ ?_
      · rw [length_andMask m0 m (by rw [h0, hms m (by simp)]), h0]
      · exact fun m' hm' => hms m' (by simp [hm'])

theorem all_map_congr {α β : Type} (l : List α) (f : α → β) (p : β → Bool)
    (q : α → Bool) (h : ∀ a ∈ l, p (f a) = q a) : (l.map f).all p = l.all q := by
  induction l with
  | nil => rfl
  | cons a as ih =>
      simp only [List.map_cons, List.all_cons, h a (by simp)]
      rw [ih (fun b hb => h b (by simp [hb]))]

/-- When every selection entry is a well-formed pair over a present field,
`buildMasks` succeeds and returns one range mask per entry in order. -/
theorem buildMasks_ok (array : List (String × List RVal)) :
    ∀ sel : List (String × LimSpec),
      (∀ e ∈ sel, ∃ lo hi xs, e.2 = LimSpec.seq [lo, hi]
        ∧ dictLookup array e.1 = some xs) →
      buildMasks array sel = .ok (sel.map (maskOf array))
  | [], _ => rfl
  | e :: rest, h => by
      obtain ⟨lo, hi, xs, h2, hx⟩ := h e (by simp)
      obtain ⟨par, lims⟩ := e
      simp only at h2
      subst h2
      have ih := buildMasks_ok array rest (fun e he => h e (by simp [he]))
      simp [buildMasks, hx, ih, maskOf]

/-- A malformed selection entry (not a 2-element sequence) makes
`buildMasks` raise the TypeError naming its field, provided the entries
before it are well-formed over present fields. -/
theorem buildMasks_malformed (array : List (String × List RVal))
    (par : String) (lims : LimSpec) (post : List (String × LimSpec))
    (hbad : ∀ lo hi, lims ≠ LimSpec.seq [lo, hi]) :
    ∀ pre : List (String × LimSpec),
      (∀ e ∈ pre, ∃ lo hi xs, e.2 = LimSpec.seq [lo, hi]
        ∧ dictLookup array e.1 = some xs) →
      buildMasks array (pre ++ (par, lims) :: post)
        = .error (.typeError ("lims of parameter " ++ par ++
            " must be a list or tuple of length 2"))
  | [], _ => by
      rcases lims with xs | q
      · rcases xs with _ | ⟨a, _ | ⟨b, _ | ⟨c, tl⟩⟩⟩
        · simp [buildMasks]
        · simp [buildMasks]
        · exact absurd rfl (hbad a b)
        · simp [buildMasks]
      · simp [buildMasks]
  | e :: pre, h => by
      obtain ⟨lo, hi, xs, h2, hx⟩ := h e (by simp)
      obtain ⟨p, l⟩ := e
      simp only at h2
      subst h2
      have ih := buildMasks_malformed array par lims post hbad pre
        (fun e he => h e (by simp [he]))
      simp [buildMasks, hx, ih]

/-- Claim C1 (counterexample): with the field name `a` present both in the
primary catalog and in a supplementary catalog,
`merge_subhalos_with_supplementary` does not return a merged array at all:
the duplicated name makes the structured-dtype construction inside
`numpy.full` raise a ValueError, so no last-catalog-wins overwrite ever
happens. -/
theorem merge_duplicate_field_raises :
    merge_subhalos_with_supplementary
      ⟨some 2, [("a", ⟨Dtype.dfloat, [RVal.num 1, RVal.num 2]⟩)]⟩
      [[("a", ⟨Dtype.dfloat, [RVal.num 3, RVal.num 4]⟩)]]
      = Except.error (PyError.valueError "field occurs more than once") := by
  decide

/-- Claim C1 (amended): for every primary catalog (with a `count` entry)
and list of supplementary catalogs in which some field name occurs in more
than one catalog — i.e. the concatenated name list has a duplicate —
`merge_subhalos_with_supplementary` raises the duplicate-field ValueError
instead of returning a merged record array. -/
theorem merge_duplicate_field_error (subhalos : Subhalos)
    (sups : List (List (String × NArr))) (N : Nat)
    (hc : subhalos.count = some N)
    (hdup : ¬ ((subhalos.fields :: sups).map (List.map Prod.fst)).flatten.Nodup) :
    merge_subhalos_with_supplementary subhalos sups
      = Except.error (PyError.valueError "field occurs more than once") := by
  simp [merge_subhalos_with_supplementary, hc, hdup]
  intro hnd
  exact absurd (by simpa using hnd) hdup

/-- Witness for the amended claim C1 at a concrete input. -/
theorem merge_duplicate_field_error_witness :
    merge_subhalos_with_supplementary
      ⟨some 3, [("b", ⟨Dtype.dfloat, [RVal.num 1, RVal.num 2, RVal.num 3]⟩)]⟩
      [[("b", ⟨Dtype.dfloat, [RVal.nan, RVal.num 4, RVal.nan]⟩)]]
      = Except.error (PyError.valueError "field occurs more than once") :=
  merge_duplicate_field_error _ _ 3 rfl (by decide)

/-- Claim C6: `apply_multiplicative_units` multiplies each field by the
factor of every units-table entry whose key occurs case-insensitively in
the field name (each matching factor applied exactly once, i.e. the field
is scaled by the product of the matching factors); in particular the field
`SubhaloMass` under the table `(Mass, 10)` is multiplied by 10 exactly
once, and a field such as `SubhaloPos` matching no key is unchanged. -/
theorem apply_units_matched_product (array : List (String × List RVal))
    (units : List (String × ℚ)) :
    apply_multiplicative_units array units
        = array.map (fun p => (p.1, p.2.map (rmul (matchedProduct units p.1))))
      ∧ matchedProduct [("Mass", (10 : ℚ))] "SubhaloMass" = 10
      ∧ apply_multiplicative_units
          [("SubhaloMass", [RVal.num 3, RVal.num 0, RVal.nan])] [("Mass", (10 : ℚ))]
          = [("SubhaloMass", [RVal.num 30, RVal.num 0, RVal.nan])]
      ∧ apply_multiplicative_units
          [("SubhaloPos", [RVal.num 7])] [("Mass", (10 : ℚ))]
          = [("SubhaloPos", [RVal.num 7])] := by
  have hm : substrCI "Mass" "SubhaloMass" = true := by decide
  have hp : substrCI "Mass" "SubhaloPos" = false := by decide
  refine ⟨?_, ?_, ?_, ?_⟩
  · exact List.map_congr_left (fun p _ => by
      simp [apply_multiplicative_units, applyUnitsField_eq])
  · simp [matchedProduct, List.filter_cons, hm]
  · simp [apply_multiplicative_units, applyUnitsField, hm, rmul]
    norm_num
  · simp [apply_multiplicative_units, applyUnitsField, hp]

/-- Claim C5: with a non-empty selection of well-formed `(lower, upper)`
pairs over present fields, `apply_selection` keeps exactly the records
whose value in each bounded field satisfies `lower < value < upper`
strictly on both ends: the result is the array filtered by a final mask
that holds at record `i` iff every entry's strict two-sided test holds
there. -/
theorem apply_selection_strict_bounds (array : List (String × List RVal))
    (sel : List (String × LimSpec)) (N : Nat)
    (hlen : ∀ p ∈ array, p.2.length = N)
    (hwf : ∀ e ∈ sel, ∃ lo hi xs, e.2 = LimSpec.seq [lo, hi]
      ∧ dictLookup array e.1 = some xs)
    (hne : sel ≠ []) :
    ∃ final : List Bool,
      apply_selection array sel false
        = Except.ok (array.map (fun p => (p.1, boolFilter p.2 final)))
      ∧ final.length = N
      ∧ ∀ i, i < N → nthD false final i = sel.all (entryKeep array i) := by
  have hmask : ∀ e ∈ sel, (maskOf array e).length = N := by
    intro e he
    obtain ⟨lo, hi, xs, h2, hx⟩ := hwf e he
    obtain ⟨par, lims⟩ := e
    simp only at h2
    subst h2
    have := hlen (par, xs) (dictLookup_mem array par xs hx)
    simp only [maskOf, hx, List.length_map]
    exact this
  have hentry : ∀ e ∈ sel, ∀ i, i < N →
      nthD false (maskOf array e) i = entryKeep array i e := by
    intro e he i hi
    obtain ⟨lo, hi', xs, h2, hx⟩ := hwf e he
    obtain ⟨par, lims⟩ := e
    simp only at h2
    subst h2
    have hxl : xs.length = N := hlen (par, xs) (dictLookup_mem array par xs hx)
    simp only [maskOf, entryKeep, hx]
    exact nthD_map_lt RVal.nan false _ xs i (by rw [hxl]; exact hi)
  cases hsel : sel with
  | nil => exact absurd hsel hne
  | cons e0 rest =>
    subst hsel
    refine ⟨(rest.map (maskOf array)).foldl andMask (maskOf array e0), ?_, ?_, ?_⟩
    · simp [apply_selection, buildMasks_ok array _ hwf]
    · refine length_foldl_andMask _ _ N (hmask e0 (by simp)) ?_
      intro m hm
      obtain ⟨e, he, rfl⟩ := List.mem_map.1 hm
      exact hmask e (by simp [he])
    · intro i hi
      rw [nthD_foldl_andMask, List.all_cons, hentry e0 (by simp) i hi]
      congr 1
      exact all_map_congr rest (maskOf array) _ _
        (fun e he => hentry e (by simp [he]) i hi)

/-- Witness for claim C5: bounds `(0, 10)` on field `x` with values
`[-1, 0, 5, 10, 11]` keep exactly the record with value 5; the boundary
values 0 and 10 are excluded. -/
theorem apply_selection_strict_bounds_witness :
    (∃ final : List Bool,
      apply_selection
          [("x", [RVal.num (-1), RVal.num 0, RVal.num 5, RVal.num 10, RVal.num 11])]
          [("x", LimSpec.seq [0, 10])] false
        = Except.ok
            ([("x", [RVal.num (-1), RVal.num 0, RVal.num 5, RVal.num 10, RVal.num 11])].map
              (fun p => (p.1, boolFilter p.2 final)))
      ∧ final.length = 5
      ∧ ∀ i, i < 5 → nthD false final i
          = [("x", LimSpec.seq [0, 10])].all
              (entryKeep
                [("x", [RVal.num (-1), RVal.num 0, RVal.num 5, RVal.num 10, RVal.num 11])] i))
    ∧ apply_selection
        [("x", [RVal.num (-1), RVal.num 0, RVal.num 5, RVal.num 10, RVal.num 11])]
        [("x", LimSpec.seq [0, 10])] false
      = Except.ok [("x", [RVal.num 5])] := by
  constructor
  · refine apply_selection_strict_bounds _ _ 5 (by decide) ?_ (by decide)
    intro e he
    simp only [List.mem_singleton] at he
    subst he
    exact ⟨0, 10,
      [RVal.num (-1), RVal.num 0, RVal.num 5, RVal.num 10, RVal.num 11],
      rfl, by decide⟩
  · decide

/-- Claim C7: a selection entry whose bound is not a 2-element sequence
makes `apply_selection` raise the TypeError naming that field (and return
no filtered result), provided the well-formed entries before it do not
fail first. -/
theorem apply_selection_malformed_lims (array : List (String × List RVal))
    (pre : List (String × LimSpec)) (par : String) (lims : LimSpec)
    (post : List (String × LimSpec)) (only_finite : Bool)
    (hpre : ∀ e ∈ pre, ∃ lo hi xs, e.2 = LimSpec.seq [lo, hi]
      ∧ dictLookup array e.1 = some xs)
    (hbad : ∀ lo hi, lims ≠ LimSpec.seq [lo, hi]) :
    apply_selection array (pre ++ (par, lims) :: post) only_finite
      = Except.error (PyError.typeError ("lims of parameter " ++ par ++
          " must be a list or tuple of length 2")) := by
  have h := buildMasks_malformed array par lims post hbad pre hpre
  simp [apply_selection, h]

/-- Witness for claim C7 at a concrete input: a scalar bound for field `y`
raises the TypeError naming `y`. -/
theorem apply_selection_malformed_lims_witness :
    apply_selection [("x", [RVal.num 1])] [("y", LimSpec.scalar 3)] false
      = Except.error (PyError.typeError
          "lims of parameter y must be a list or tuple of length 2") := by
  have h := apply_selection_malformed_lims [("x", [RVal.num 1])] []
    "y" (LimSpec.scalar 3) [] false
    (by intro e he; simp at he)
    (fun lo hi h => by cases h)
  simpa using h

/-- Claim C10: with an empty selection mapping, `apply_selection` fails
with an IndexError (indexing `masks[0]` on an empty list) when
`only_finite` is false, but succeeds when `only_finite` is true, returning
exactly the records all of whose fields are finite (non-NaN). -/
theorem apply_selection_empty_selection (array : List (String × List RVal))
    (N : Nat) (hne : array ≠ []) (hlen : ∀ p ∈ array, p.2.length = N) :
    apply_selection array [] false
        = Except.error (PyError.indexError "list index out of range")
      ∧ ∃ final : List Bool,
          apply_selection array [] true
            = Except.ok (array.map (fun p => (p.1, boolFilter p.2 final)))
          ∧ final.length = N
          ∧ ∀ i, i < N → nthD false final i
              = array.all (fun p => isFiniteB (nthD RVal.nan p.2 i)) := by
  constructor
  · rfl
  · have hfin : ∀ p ∈ array, ∀ i, i < N →
        nthD false (p.2.map isFiniteB) i = isFiniteB (nthD RVal.nan p.2 i) := by
      intro p hp i hi
      exact nthD_map_lt RVal.nan false _ p.2 i (by rw [hlen p hp]; exact hi)
    cases harr : array with
    | nil => exact absurd harr hne
    | cons p0 ps =>
      subst harr
      refine ⟨(ps.map (fun p => p.2.map isFiniteB)).foldl andMask
        (p0.2.map isFiniteB), ?_, ?_, ?_⟩
      · simp [apply_selection, buildMasks]
      · refine length_foldl_andMask _ _ N ?_ ?_
        · simp [hlen p0 (by simp)]
        · intro m hm
          obtain ⟨p, hp, rfl⟩ := List.mem_map.1 hm
          simp [hlen p (by simp [hp])]
      · intro i hi
        rw [nthD_foldl_andMask, List.all_cons, hfin p0 (by simp) i hi]
        congr 1
        exact all_map_congr ps (fun p => p.2.map isFiniteB) _ _
          (fun p hp => hfin p (by simp [hp]) i hi)

/-- Witness for claim C10 at a concrete two-field array: the empty
selection raises an IndexError without the completeness flag and keeps
exactly the NaN-free records with it. -/
theorem apply_selection_empty_selection_witness :
    (apply_selection [("a", [RVal.num 1, RVal.nan, RVal.num 3]),
                      ("b", [RVal.num 4, RVal.num 5, RVal.nan])] [] false
        = Except.error (PyError.indexError "list index out of range")
      ∧ ∃ final : List Bool,
          apply_selection [("a", [RVal.num 1, RVal.nan, RVal.num 3]),
                           ("b", [RVal.num 4, RVal.num 5, RVal.nan])] [] true
            = Except.ok ([("a", [RVal.num 1, RVal.nan, RVal.num 3]),
                          ("b", [RVal.num 4, RVal.num 5, RVal.nan])].map
                (fun p => (p.1, boolFilter p.2 final)))
          ∧ final.length = 3
          ∧ ∀ i, i < 3 → nthD false final i
              = [("a", [RVal.num 1, RVal.nan, RVal.num 3]),
                 ("b", [RVal.num 4, RVal.num 5, RVal.nan])].all
                  (fun p => isFiniteB (nthD RVal.nan p.2 i)))
    ∧ apply_selection [("a", [RVal.num 1, RVal.nan, RVal.num 3]),
                       ("b", [RVal.num 4, RVal.num 5, RVal.nan])] [] true
        = Except.ok [("a", [RVal.num 1]), ("b", [RVal.num 4])] := by
  constructor
  · exact apply_selection_empty_selection _ 3 (by decide) (by decide)
  · decide

theorem nthD_set_self : ∀ (l : List RVal) (n : Nat) (v : RVal), n < l.length →
    nthD RVal.nan (l.set n v) n = v
  | [], n, v, h => by simp at h
  | x :: xs, 0, v, _ => rfl
  | x :: xs, n + 1, v, h => nthD_set_self xs n v (by simpa using h)

theorem nthD_set_ne : ∀ (l : List RVal) (n m : Nat) (v : RVal), n ≠ m →
    nthD RVal.nan (l.set n v) m = nthD RVal.nan l m
  | [], _, _, _, _ => rfl
  | x :: xs, 0, 0, v, h => absurd rfl h
  | x :: xs, 0, m + 1, v, _ => rfl
  | x :: xs, n + 1, 0, v, _ => rfl
  | x :: xs, n + 1, m + 1, v, h =>
      nthD_set_ne xs n m v (fun hc => h (by rw [hc]))

theorem nthD_replicate : ∀ (N i : Nat),
    nthD RVal.nan (List.replicate N RVal.nan) i = RVal.nan
  | 0, _ => rfl
  | _ + 1, 0 => rfl
  | N + 1, i + 1 => nthD_replicate N i

theorem nthD_mem : ∀ (l : List Nat) (i : Nat), i < l.length → nthD 0 l i ∈ l
  | [], i, h => by simp at h
  | x :: xs, 0, _ => by simp [nthD]
  | x :: xs, i + 1, h => by
      simp only [nthD, List.mem_cons]
      exact Or.inr (nthD_mem xs i (by simpa using h))

theorem mem_nthD : ∀ (l : List Nat) (t : Nat), t ∈ l →
    ∃ j, j < l.length ∧ nthD 0 l j = t
  | [], t, h => by simp at h
  | x :: xs, t, h => by
      rcases List.mem_cons.1 h with h | h
      · exact ⟨0, by simp, h.symm⟩
      · obtain ⟨j, hj, hje⟩ := mem_nthD xs t h
        exact ⟨j + 1, by simpa using hj, hje⟩

theorem scatter_eq_ok : ∀ (full : List RVal) (ids : List Nat) (vs : List RVal),
    (∀ i ∈ ids, i < full.length) → ids.length = vs.length →
    scatter full ids vs = .ok (scatterT full ids vs)
  | full, [], [], _, _ => rfl
  | full, [], v :: vs, _, h => by simp at h
  | full, idx :: ids, [], _, h => by simp at h
  | full, idx :: ids, v :: vs, hb, hl => by
      have hidx : idx < full.length := hb idx (by simp)
      rw [scatter, if_pos hidx, scatterT]
      exact scatter_eq_ok (full.set idx v) ids vs
        (fun i hi => by rw [List.length_set]; exact hb i (by simp [hi]))
        (by simpa using hl)

theorem length_scatterT : ∀ (full : List RVal) (ids : List Nat) (vs : List RVal),
    (scatterT full ids vs).length = full.length
  | _, [], _ => by simp [scatterT]
  | _, _ :: _, [] => by simp [scatterT]
  | full, idx :: ids, v :: vs => by
      rw [scatterT, length_scatterT (full.set idx v) ids vs, List.length_set]

theorem nthD_scatterT_not_mem :
    ∀ (full : List RVal) (ids : List Nat) (vs : List RVal) (t : Nat),
      t ∉ ids → nthD RVal.nan (scatterT full ids vs) t = nthD RVal.nan full t
  | _, [], _, _, _ => by simp [scatterT]
  | _, _ :: _, [], _, _ => by simp [scatterT]
  | full, idx :: ids, v :: vs, t, ht => by
      rw [scatterT, nthD_scatterT_not_mem (full.set idx v) ids vs t
        (fun h => ht (List.mem_cons_of_mem idx h))]
      exact nthD_set_ne full idx t v
        (fun h => ht (h ▸ List.mem_cons_self idx ids))

theorem nthD_scatterT_nodup :
    ∀ (full : List RVal) (ids : List Nat) (vs : List RVal) (i : Nat),
      ids.Nodup → ids.length = vs.length → i < ids.length →
      (∀ j ∈ ids, j < full.length) →
      nthD RVal.nan (scatterT full ids vs) (nthD 0 ids i) = nthD RVal.nan vs i
  | full, [], vs, i, _, _, hi, _ => by simp at hi
  | full, idx :: ids, [], i, _, hl, _, _ => by simp at hl
  | full, idx :: ids, v :: vs, 0, hnd, hl, _, hb => by
      have hidx : idx ∉ ids := (List.nodup_cons.1 hnd).1
      rw [scatterT]
      show nthD RVal.nan (scatterT (full.set idx v) ids vs) idx = v
      rw [nthD_scatterT_not_mem (full.set idx v) ids vs idx hidx]
      exact nthD_set_self full idx v (hb idx (by simp))
  | full, idx :: ids, v :: vs, i + 1, hnd, hl, hi, hb => by
      rw [scatterT]
      show nthD RVal.nan (scatterT (full.set idx v) ids vs) (nthD 0 ids i)
        = nthD RVal.nan vs i
      exact nthD_scatterT_nodup (full.set idx v) ids vs i
        (List.nodup_cons.1 hnd).2 (by simpa using hl) (by simpa using hi)
        (fun j hj => by rw [List.length_set]; exact hb j (by simp [hj]))

theorem nthD_scatterT_last :
    ∀ (full : List RVal) (ids : List Nat) (vs : List RVal) (i t : Nat),
      i < ids.length → nthD 0 ids i = t →
      (∀ j, i < j → j < ids.length → nthD 0 ids j ≠ t) →
      ids.length = vs.length → t < full.length →
      nthD RVal.nan (scatterT full ids vs) t = nthD RVal.nan vs i
  | full, [], vs, i, t, hi, _, _, _, _ => by simp at hi
  | full, idx :: ids, [], i, t, _, _, _, hl, _ => by simp at hl
  | full, idx :: ids, v :: vs, 0, t, _, hit, hlast, hl, htN => by
      have hidx : idx = t := hit
      subst hidx
      have hnm : idx ∉ ids := by
        intro hmem
        obtain ⟨j, hj, hje⟩ := mem_nthD ids idx hmem
        exact hlast (j + 1) (Nat.succ_pos j) (by simpa using hj) hje
      rw [scatterT]
      show nthD RVal.nan (scatterT (full.set idx v) ids vs) idx = v
      rw [nthD_scatterT_not_mem (full.set idx v) ids vs idx hnm]
      exact nthD_set_self full idx v htN
  | full, idx :: ids, v :: vs, i + 1, t, hi, hit, hlast, hl, htN => by
      rw [scatterT]
      show nthD RVal.nan (scatterT (full.set idx v) ids vs) t = nthD RVal.nan vs i
      exact nthD_scatterT_last (full.set idx v) ids vs i t
        (by simpa using hi) hit
        (fun j hj1 hj2 => hlast (j + 1) (by omega) (by simpa using hj2))
        (by simpa using hl) (by rw [List.length_set]; exact htN)

/-- When every field is float-typed with data of the identifier column's
length and every identifier is in range, the per-catalog loop succeeds
and each field becomes the scatter of its data over a NaN template. -/
theorem matchFields_ok (N : Nat) (ids : List Nat) :
    ∀ fields : List (String × NArr),
      (∀ p ∈ fields, p.2.dtype = Dtype.dfloat) →
      (∀ p ∈ fields, p.2.data.length = ids.length) →
      (∀ j ∈ ids, j < N) →
      matchFields N ids fields
        = .ok (fields.map (fun p =>
            (p.1, ⟨p.2.dtype, scatterT (List.replicate N RVal.nan) ids p.2.data⟩)))
  | [], _, _, _ => rfl
  | (k, a) :: rest, hd, hl, hb => by
      have hdt : a.dtype = Dtype.dfloat := hd (k, a) (by simp)
      have hsc : scatter (List.replicate N RVal.nan) ids a.data
          = .ok (scatterT (List.replicate N RVal.nan) ids a.data) :=
        scatter_eq_ok _ ids a.data
          (fun i hi => by rw [List.length_replicate]; exact hb i hi)
          (hl (k, a) (by simp)).symm
      have ih := matchFields_ok N ids rest (fun p hp => hd p (by simp [hp]))
        (fun p hp => hl p (by simp [hp])) hb
      simp [matchFields, matchField, hdt, numpyFullNan, hsc, ih]

theorem matchFields_error_of_int (N : Nat) (ids : List Nat) :
    ∀ (fields : List (String × NArr)) (k : String) (a : NArr),
      (k, a) ∈ fields → a.dtype = Dtype.dint →
      ∃ e, matchFields N ids fields = Except.error e
  | [], k, a, h, _ => by simp at h
  | (k0, a0) :: rest, k, a, h, hint => by
      rcases List.mem_cons.1 h with h | h
      · rw [Prod.mk.injEq] at h
        obtain ⟨rfl, rfl⟩ := h
        refine ⟨.valueError "cannot convert float NaN to integer", ?_⟩
        simp [matchFields, matchField, hint, numpyFullNan]
      · cases hmf : matchField N ids a0 with
        | error e => exact ⟨e, by simp [matchFields, hmf]⟩
        | ok a2 =>
          obtain ⟨e, he⟩ := matchFields_error_of_int N ids rest k a h hint
          exact ⟨e, by simp [matchFields, hmf, he]⟩

/-- Claim C2: for a sparse catalog whose identifiers are distinct and lie
in `[0, N)`, with float-typed fields of the identifier column's length M,
`match_subfind` succeeds and turns every field into a length-N array
holding the original value at each identifier position and the NaN
sentinel at each of the remaining N − M positions. -/
theorem match_subfind_unique_ids (c : SupCatalog) (N : Nat)
    (hnd : c.subfindID.Nodup)
    (hin : ∀ j ∈ c.subfindID, j < N)
    (hflt : ∀ p ∈ c.fields, p.2.dtype = Dtype.dfloat)
    (hlen : ∀ p ∈ c.fields, p.2.data.length = c.subfindID.length)
    (hM : c.subfindID.length < N) :
    ∃ out : List (String × NArr),
      match_subfind [c] N = Except.ok [out]
      ∧ out.map Prod.fst = c.fields.map Prod.fst
      ∧ ∀ p ∈ c.fields, ∃ b : NArr,
          (p.1, b) ∈ out
          ∧ b.data.length = N
          ∧ (∀ i, i < c.subfindID.length →
              nthD RVal.nan b.data (nthD 0 c.subfindID i) = nthD RVal.nan p.2.data i)
          ∧ (∀ t, t < N → t ∉ c.subfindID → nthD RVal.nan b.data t = RVal.nan) := by
  have hmf := matchFields_ok N c.subfindID c.fields hflt hlen hin
  refine ⟨c.fields.map (fun p =>
      (p.1, ⟨p.2.dtype, scatterT (List.replicate N RVal.nan) c.subfindID p.2.data⟩)),
    by simp [match_subfind, hmf], by simp, ?_⟩
  intro p hp
  refine ⟨⟨p.2.dtype, scatterT (List.replicate N RVal.nan) c.subfindID p.2.data⟩,
    List.mem_map.2 ⟨p, hp, rfl⟩, ?_, ?_, ?_⟩
  · rw [length_scatterT, List.length_replicate]
  · intro i hi
    exact nthD_scatterT_nodup _ _ _ i hnd (hlen p hp).symm hi
      (fun j hj => by rw [List.length_replicate]; exact hin j hj)
  · intro t _ htm
    rw [nthD_scatterT_not_mem _ _ _ t htm, nthD_replicate]

/-- Witness for claim C2: identifiers `[2, 0]` (M = 2) into N = 4 slots
place the two values at positions 2 and 0 and NaN at positions 1 and 3. -/
theorem match_subfind_unique_ids_witness :
    (∃ out : List (String × NArr),
      match_subfind [⟨[2, 0], [("m", ⟨Dtype.dfloat, [RVal.num 7, RVal.num 8]⟩)]⟩] 4
        = Except.ok [out]
      ∧ out.map Prod.fst
        = [("m", (⟨Dtype.dfloat, [RVal.num 7, RVal.num 8]⟩ : NArr))].map Prod.fst
      ∧ ∀ p ∈ [("m", (⟨Dtype.dfloat, [RVal.num 7, RVal.num 8]⟩ : NArr))], ∃ b : NArr,
          (p.1, b) ∈ out
          ∧ b.data.length = 4
          ∧ (∀ i, i < ([2, 0] : List Nat).length →
              nthD RVal.nan b.data (nthD 0 [2, 0] i) = nthD RVal.nan p.2.data i)
          ∧ (∀ t, t < 4 → t ∉ ([2, 0] : List Nat) → nthD RVal.nan b.data t = RVal.nan))
    ∧ match_subfind [⟨[2, 0], [("m", ⟨Dtype.dfloat, [RVal.num 7, RVal.num 8]⟩)]⟩] 4
        = Except.ok [[("m", ⟨Dtype.dfloat, [RVal.num 8, RVal.nan, RVal.num 7, RVal.nan]⟩)]] :=
  ⟨match_subfind_unique_ids ⟨[2, 0], [("m", ⟨Dtype.dfloat, [RVal.num 7, RVal.num 8]⟩)]⟩ 4
    (by decide) (by decide) (by decide) (by decide) (by decide), by decide⟩

/-- Claim C3: when two records share an identifier `t` (positions
`i1 < i2`, with `i2` the last occurrence), `match_subfind` raises no
error and the aligned array holds, at position `t`, the field value of
the record at `i2` — the last occurrence in input order wins. -/
theorem match_subfind_duplicate_ids (c : SupCatalog) (N : Nat) (i1 i2 t : Nat)
    (hin : ∀ j ∈ c.subfindID, j < N)
    (hflt : ∀ p ∈ c.fields, p.2.dtype = Dtype.dfloat)
    (hlen : ∀ p ∈ c.fields, p.2.data.length = c.subfindID.length)
    (h12 : i1 < i2) (h2 : i2 < c.subfindID.length)
    (ht1 : nthD 0 c.subfindID i1 = t) (ht2 : nthD 0 c.subfindID i2 = t)
    (hlast : ∀ j, i2 < j → j < c.subfindID.length → nthD 0 c.subfindID j ≠ t) :
    ∃ out : List (String × NArr),
      match_subfind [c] N = Except.ok [out]
      ∧ ∀ p ∈ c.fields, ∃ b : NArr,
          (p.1, b) ∈ out
          ∧ nthD RVal.nan b.data t = nthD RVal.nan p.2.data i2 := by
  have hmf := matchFields_ok N c.subfindID c.fields hflt hlen hin
  refine ⟨c.fields.map (fun p =>
      (p.1, ⟨p.2.dtype, scatterT (List.replicate N RVal.nan) c.subfindID p.2.data⟩)),
    by simp [match_subfind, hmf], ?_⟩
  intro p hp
  refine ⟨⟨p.2.dtype, scatterT (List.replicate N RVal.nan) c.subfindID p.2.data⟩,
    List.mem_map.2 ⟨p, hp, rfl⟩, ?_⟩
  exact nthD_scatterT_last _ _ _ i2 t h2 ht2 hlast (hlen p hp).symm
    (by rw [List.length_replicate]
        exact hin t (ht2 ▸ nthD_mem c.subfindID i2 h2))

/-- Witness for claim C3: identifiers `[1, 1]` write values 7 then 9 to
position 1; the aligned array holds 9 there, the later record's value. -/
theorem match_subfind_duplicate_ids_witness :
    (∃ out : List (String × NArr),
      match_subfind [⟨[1, 1], [("m", ⟨Dtype.dfloat, [RVal.num 7, RVal.num 9]⟩)]⟩] 3
        = Except.ok [out]
      ∧ ∀ p ∈ [("m", (⟨Dtype.dfloat, [RVal.num 7, RVal.num 9]⟩ : NArr))], ∃ b : NArr,
          (p.1, b) ∈ out
          ∧ nthD RVal.nan b.data 1 = nthD RVal.nan p.2.data 1)
    ∧ match_subfind [⟨[1, 1], [("m", ⟨Dtype.dfloat, [RVal.num 7, RVal.num 9]⟩)]⟩] 3
        = Except.ok [[("m", ⟨Dtype.dfloat, [RVal.nan, RVal.num 9, RVal.nan]⟩)]] :=
  ⟨match_subfind_duplicate_ids ⟨[1, 1], [("m", ⟨Dtype.dfloat, [RVal.num 7, RVal.num 9]⟩)]⟩ 3
    0 1 1 (by decide) (by decide) (by decide) (by decide) (by decide) (by decide)
    (by decide) (by intro j hj1 hj2; simp at hj2; omega), by decide⟩

/-- Claim C8: a catalog containing a non-identifier field of integer
dtype makes `match_subfind` raise an error instead of aligning it: the
NaN-filled template `numpy.full(N, nan, dtype=field.dtype)` cannot be
created for an integer dtype, and the code performs no upcast. -/
theorem match_subfind_int_dtype (c : SupCatalog) (N : Nat) (k : String) (a : NArr)
    (hmem : (k, a) ∈ c.fields) (hint : a.dtype = Dtype.dint) :
    ∃ e, match_subfind [c] N = Except.error e := by
  obtain ⟨e, he⟩ := matchFields_error_of_int N c.subfindID c.fields k a hmem hint
  exact ⟨e, by simp [match_subfind, he]⟩

/-- Witness for claim C8: one integer-typed field makes the call fail
with the NaN-conversion ValueError. -/
theorem match_subfind_int_dtype_witness :
    (∃ e, match_subfind [⟨[0], [("n", ⟨Dtype.dint, [RVal.num 5]⟩)]⟩] 2 = Except.error e)
    ∧ match_subfind [⟨[0], [("n", ⟨Dtype.dint, [RVal.num 5]⟩)]⟩] 2
        = Except.error (PyError.valueError "cannot convert float NaN to integer") :=
  ⟨match_subfind_int_dtype ⟨[0], [("n", ⟨Dtype.dint, [RVal.num 5]⟩)]⟩ 2 "n"
    ⟨Dtype.dint, [RVal.num 5]⟩ (by decide) rfl, by decide⟩

theorem dictLookup_eq_none {α : Type} :
    ∀ (l : List (String × α)) (k : String), k ∉ l.map Prod.fst →
      dictLookup l k = none
  | [], _, _ => rfl
  | (k0, w) :: rest, k, h => by
      have hk : k0 ≠ k := fun hc => h (by simp [hc])
      simp only [dictLookup, if_neg hk]
      exact dictLookup_eq_none rest k (fun hc => h (by simp [hc]))

theorem dictLookup_dictUpdate_self {α : Type} :
    ∀ (l : List (String × α)) (k : String) (v : α),
      dictLookup (dictUpdate l k v) k = some v
  | [], k, v => by simp [dictUpdate, dictLookup]
  | (k0, w) :: rest, k, v => by
      by_cases h : k0 = k
      · simp [dictUpdate, dictLookup, h]
      · simp only [dictUpdate, if_neg h, dictLookup, if_neg h]
        exact dictLookup_dictUpdate_self rest k v

theorem dictLookup_dictUpdate_ne {α : Type} :
    ∀ (l : List (String × α)) (k k' : String) (v : α), k' ≠ k →
      dictLookup (dictUpdate l k v) k' = dictLookup l k'
  | [], k, k', v, h => by
      simp only [dictUpdate, dictLookup, if_neg (Ne.symm h)]
  | (k0, w) :: rest, k, k', v, h => by
      by_cases h0 : k0 = k
      · subst h0
        simp only [dictUpdate, if_pos rfl, dictLookup, if_neg (Ne.symm h)]
      · by_cases h1 : k0 = k'
        · simp only [dictUpdate, if_neg h0, dictLookup, if_pos h1]
        · simp only [dictUpdate, if_neg h0, dictLookup, if_neg h1]
          exact dictLookup_dictUpdate_ne rest k k' v h

theorem dictLookup_dictPop_ne {α : Type} :
    ∀ (l : List (String × α)) (k k' : String), k' ≠ k →
      dictLookup (dictPop l k) k' = dictLookup l k'
  | [], _, _, _ => rfl
  | (k0, w) :: rest, k, k', h => by
      by_cases h0 : k0 = k
      · subst h0
        have hne : ¬(k0 = k') := fun hc => h hc.symm
        simp [dictPop, dictLookup, hne]
      · by_cases h1 : k0 = k'
        · simp only [dictPop, if_neg h0, dictLookup, if_pos h1]
        · simp only [dictPop, if_neg h0, dictLookup, if_neg h1]
          exact dictLookup_dictPop_ne rest k k' h

theorem dictLookup_dictPop_self {α : Type} :
    ∀ (l : List (String × α)) (k : String), (l.map Prod.fst).Nodup →
      dictLookup (dictPop l k) k = none
  | [], _, _ => rfl
  | (k0, w) :: rest, k, hnd => by
      simp only [List.map_cons, List.nodup_cons] at hnd
      by_cases h0 : k0 = k
      · subst h0
        have hpop : dictPop ((k0, w) :: rest) k0 = rest := by simp [dictPop]
        rw [hpop]
        exact dictLookup_eq_none rest k0 hnd.1
      · simp only [dictPop, if_neg h0, dictLookup, if_neg h0]
        exact dictLookup_dictPop_self rest k hnd.2

theorem keys_dictPop_sublist {α : Type} :
    ∀ (l : List (String × α)) (k : String),
      List.Sublist ((dictPop l k).map Prod.fst) (l.map Prod.fst)
  | [], _ => List.Sublist.refl _
  | (k0, w) :: rest, k => by
      by_cases h0 : k0 = k
      · have hpop : dictPop ((k0, w) :: rest) k = rest := by simp [dictPop, h0]
        rw [hpop, List.map_cons]
        exact List.sublist_cons_self _ _
      · simp only [dictPop, if_neg h0, List.map_cons]
        exact List.Sublist.cons₂ _ (keys_dictPop_sublist rest k)

theorem mem_keys_dictUpdate {α : Type} :
    ∀ (l : List (String × α)) (k k' : String) (v : α),
      k' ∈ (dictUpdate l k v).map Prod.fst ↔ (k' ∈ l.map Prod.fst ∨ k' = k)
  | [], k, k', v => by simp [dictUpdate]
  | (k0, w) :: rest, k, k', v => by
      by_cases h0 : k0 = k
      · subst h0
        have hupd : dictUpdate ((k0, w) :: rest) k0 v = (k0, v) :: rest := by
          simp [dictUpdate]
        rw [hupd]
        simp only [List.map_cons, List.mem_cons]
        tauto
      · simp only [dictUpdate, if_neg h0, List.map_cons, List.mem_cons,
          mem_keys_dictUpdate rest k k' v]
        tauto

theorem keys_dictUpdate_nodup {α : Type} :
    ∀ (l : List (String × α)) (k : String) (v : α),
      (l.map Prod.fst).Nodup → ((dictUpdate l k v).map Prod.fst).Nodup
  | [], k, v, _ => by simp [dictUpdate]
  | (k0, w) :: rest, k, v, hnd => by
      simp only [List.map_cons, List.nodup_cons] at hnd
      by_cases h0 : k0 = k
      · subst h0
        have hupd : dictUpdate ((k0, w) :: rest) k0 v = (k0, v) :: rest := by
          simp [dictUpdate]
        rw [hupd]
        simp only [List.map_cons, List.nodup_cons]
        exact ⟨hnd.1, hnd.2⟩
      · simp only [dictUpdate, if_neg h0, List.map_cons, List.nodup_cons]
        refine ⟨?_, keys_dictUpdate_nodup rest k v hnd.2⟩
        intro hc
        rcases (mem_keys_dictUpdate rest k k0 v).1 hc with h | h
        · exact hnd.1 h
        · exact h0 h

theorem getCol_ok (rows : List (List RVal)) (c : Nat)
    (h : ∀ r ∈ rows, c < r.length) :
    getCol rows c = .ok (rows.map (fun r => nthD RVal.nan r c)) := by
  unfold getCol
  rw [if_pos]
  exact List.all_eq_true.2 (fun r hr => decide_eq_true (h r hr))

/-- The column loop of the unpacker: with in-range columns it succeeds,
touches only the generated names, stores each column under its generated
name (when they are mutually distinct), and preserves key uniqueness. -/
theorem addCols_spec (field : String) (rows : List (List RVal)) :
    ∀ (cs : List Nat) (cat : List (String × CatValue)),
      (∀ c ∈ cs, ∀ r ∈ rows, c < r.length) →
      ∃ cat2, addCols field rows cat cs = .ok cat2
        ∧ (∀ k, k ∉ cs.map (genName field) → dictLookup cat2 k = dictLookup cat k)
        ∧ ((cs.map (genName field)).Nodup → ∀ c ∈ cs,
            dictLookup cat2 (genName field c)
              = some (.arr1 (rows.map (fun r => nthD RVal.nan r c))))
        ∧ ((cat.map Prod.fst).Nodup → (cat2.map Prod.fst).Nodup)
  | [], cat, _ =>
      ⟨cat, rfl, fun _ _ => rfl,
        fun _ c hc => absurd hc (List.not_mem_nil c), fun h => h⟩
  | c0 :: cs, cat, h => by
      have hcol := getCol_ok rows c0 (h c0 (by simp))
      obtain ⟨cat2, hok, hun, hgen, hnd⟩ := addCols_spec field rows cs
        (dictUpdate cat (genName field c0)
          (.arr1 (rows.map (fun r => nthD RVal.nan r c0))))
        (fun c hc => h c (by simp [hc]))
      refine ⟨cat2, ?_, ?_, ?_, ?_⟩
      · simp [addCols, hcol, hok]
      · intro k hk
        rw [hun k (fun hc => hk (by simp [hc]))]
        exact dictLookup_dictUpdate_ne cat (genName field c0) k _
          (fun hc => hk (by simp [hc]))
      · intro hndg c hc
        simp only [List.map_cons, List.nodup_cons] at hndg
        rcases List.mem_cons.1 hc with rfl | hc2
        · rw [hun (genName field c) hndg.1]
          exact dictLookup_dictUpdate_self cat _ _
        · exact hgen hndg.2 c hc2
      · intro hk
        exact hnd (keys_dictUpdate_nodup cat _ _ hk)

/-- The invariant of the unpacker's loop over a snapshot of distinct field
names, each bound in the catalog to a 1-D array or to a 2-D array with a
well-formed column-mapping entry, with all generated names fresh and
mutually distinct: the loop succeeds; keys outside the snapshot and the
generated names keep their bindings; 1-D snapshot fields keep theirs; 2-D
snapshot fields are removed and their columns appear under the generated
names. -/
theorem unpackFold_spec (cm : List (String × ColSpec)) :
    ∀ (S : List String) (cat : List (String × CatValue)),
      (cat.map Prod.fst).Nodup →
      S.Nodup →
      (∀ f ∈ S, (∃ xs, dictLookup cat f = some (CatValue.arr1 xs))
        ∨ (∃ rows cs, dictLookup cat f = some (CatValue.arr2 rows)
            ∧ dictLookup cm f = some (ColSpec.lst cs)
            ∧ ∀ c ∈ cs, ∀ r ∈ rows, c < r.length)) →
      (allGen cm S).Nodup →
      (∀ g ∈ allGen cm S, dictLookup cat g = none) →
      ∃ cat2, unpackFold cm S cat = .ok cat2
        ∧ (∀ k, k ∉ S → k ∉ allGen cm S → dictLookup cat2 k = dictLookup cat k)
        ∧ (∀ f ∈ S, ∀ xs, dictLookup cat f = some (CatValue.arr1 xs) →
            dictLookup cat2 f = some (CatValue.arr1 xs))
        ∧ (∀ f ∈ S, ∀ rows, dictLookup cat f = some (CatValue.arr2 rows) →
            dictLookup cat2 f = none
            ∧ ∀ cs, dictLookup cm f = some (ColSpec.lst cs) →
              ∀ c ∈ cs, dictLookup cat2 (genName f c)
                = some (CatValue.arr1 (rows.map (fun r => nthD RVal.nan r c))))
  | [], cat, _, _, _, _, _ =>
      ⟨cat, rfl, fun _ _ _ => rfl,
        fun f hf => absurd hf (List.not_mem_nil f),
        fun f hf => absurd hf (List.not_mem_nil f)⟩
  | f0 :: S, cat, hkeys, hSnd, hwf, hgnd, hfresh => by
      have hS0 : f0 ∉ S := (List.nodup_cons.1 hSnd).1
      have hSnd' : S.Nodup := (List.nodup_cons.1 hSnd).2
      have hallgen : allGen cm (f0 :: S) = cmGen cm f0 ++ allGen cm S := by
        simp [allGen]
      rw [hallgen] at hgnd hfresh
      have hgnd0 : (cmGen cm f0).Nodup := (List.nodup_append.1 hgnd).1
      have hgndS : (allGen cm S).Nodup := (List.nodup_append.1 hgnd).2.1
      have hdisj : ∀ g ∈ cmGen cm f0, g ∉ allGen cm S :=
        fun g hg hgs => (List.nodup_append.1 hgnd).2.2 hg hgs
      have hfresh0 : ∀ g ∈ cmGen cm f0, dictLookup cat g = none :=
        fun g hg => hfresh g (List.mem_append_left _ hg)
      have hfreshS : ∀ g ∈ allGen cm S, dictLookup cat g = none :=
        fun g hg => hfresh g (List.mem_append_right _ hg)
      have hnotgen : ∀ (f : String) (v : CatValue), dictLookup cat f = some v →
          f ∉ cmGen cm f0 ∧ f ∉ allGen cm S := by
        intro f v hv
        constructor
        · intro hc; simp [hfresh0 f hc] at hv
        · intro hc; simp [hfreshS f hc] at hv
      have hSsome : ∀ f ∈ f0 :: S, ∃ v, dictLookup cat f = some v := by
        intro f hf
        rcases hwf f hf with ⟨xs, hx⟩ | ⟨r, c, hx, _, _⟩
        · exact ⟨_, hx⟩
        · exact ⟨_, hx⟩
      rcases hwf f0 (by simp) with ⟨xs, hx⟩ | ⟨rows, cs, hx, hcm, hcols⟩
      · -- head field is 1-D: the step leaves the catalog unchanged
        obtain ⟨cat2, hok, hun, h1d, h2d⟩ := unpackFold_spec cm S cat hkeys hSnd'
          (fun f hf => hwf f (by simp [hf])) hgndS hfreshS
        refine ⟨cat2, ?_, ?_, ?_, ?_⟩
        · simp [unpackFold, unpackStep, hx, hok]
        · intro k hk1 hk2
          rw [hallgen] at hk2
          exact hun k (fun hc => hk1 (by simp [hc]))
            (fun hc => hk2 (List.mem_append_right _ hc))
        · intro f hf xs2 hx2
          rcases List.mem_cons.1 hf with rfl | hf2
          · rw [hun f hS0 (hnotgen f _ hx2).2]
            exact hx2
          · exact h1d f hf2 xs2 hx2
        · intro f hf rows2 hx2
          rcases List.mem_cons.1 hf with rfl | hf2
          · rw [hx] at hx2; simp at hx2
          · exact h2d f hf2 rows2 hx2
      · -- head field is 2-D: pop it and add its columns
        have hgens_eq : cmGen cm f0 = cs.map (genName f0) := by
          simp [cmGen, hcm]
        obtain ⟨cat1, hok1, hun1, hgen1, hnd1fn⟩ := addCols_spec f0 rows cs
          (dictPop cat f0) hcols
        have hnd1 : (cat1.map Prod.fst).Nodup :=
          hnd1fn (List.Nodup.sublist (keys_dictPop_sublist cat f0) hkeys)
        have hL1 : ∀ k, k ∉ cs.map (genName f0) → k ≠ f0 →
            dictLookup cat1 k = dictLookup cat k := by
          intro k hk hkf
          rw [hun1 k hk]
          exact dictLookup_dictPop_ne cat f0 k hkf
        have hLgen : ∀ c ∈ cs, dictLookup cat1 (genName f0 c)
            = some (CatValue.arr1 (rows.map (fun r => nthD RVal.nan r c))) :=
          hgen1 (hgens_eq ▸ hgnd0)
        have hLf0 : dictLookup cat1 f0 = none := by
          have hf0notgen : f0 ∉ cs.map (genName f0) :=
            hgens_eq ▸ (hnotgen f0 _ hx).1
          rw [hun1 f0 hf0notgen]
          exact dictLookup_dictPop_self cat f0 hkeys
        have hsame : ∀ f ∈ S, dictLookup cat1 f = dictLookup cat f := by
          intro f hf
          obtain ⟨v, hv⟩ := hSsome f (by simp [hf])
          exact hL1 f (hgens_eq ▸ (hnotgen f _ hv).1)
            (fun hc => hS0 (hc ▸ hf))
        have hwf1 : ∀ f ∈ S, (∃ xs, dictLookup cat1 f = some (CatValue.arr1 xs))
            ∨ (∃ rows cs, dictLookup cat1 f = some (CatValue.arr2 rows)
                ∧ dictLookup cm f = some (ColSpec.lst cs)
                ∧ ∀ c ∈ cs, ∀ r ∈ rows, c < r.length) := by
          intro f hf
          rw [hsame f hf]
          exact hwf f (by simp [hf])
        have hfresh1 : ∀ g ∈ allGen cm S, dictLookup cat1 g = none := by
          intro g hg
          have hgf0 : g ≠ f0 := by
            intro hc
            have h1 := hfreshS g hg
            rw [hc, hx] at h1
            cases h1
          have hgnotgen0 : g ∉ cs.map (genName f0) :=
            hgens_eq ▸ (fun hc => hdisj g hc hg)
          rw [hL1 g hgnotgen0 hgf0]
          exact hfreshS g hg
        obtain ⟨cat2, hok2, hun2, h1d, h2d⟩ := unpackFold_spec cm S cat1 hnd1 hSnd'
          hwf1 hgndS hfresh1
        refine ⟨cat2, ?_, ?_, ?_, ?_⟩
        · simp [unpackFold, unpackStep, hx, hcm, hok1, hok2]
        · intro k hk1 hk2
          rw [hallgen] at hk2
          have hkS : k ∉ S := fun hc => hk1 (by simp [hc])
          have hkgS : k ∉ allGen cm S :=
            fun hc => hk2 (List.mem_append_right _ hc)
          have hkg0 : k ∉ cs.map (genName f0) :=
            hgens_eq ▸ (fun hc => hk2 (List.mem_append_left _ (hgens_eq ▸ hc)))
          rw [hun2 k hkS hkgS]
          exact hL1 k hkg0 (fun hc => hk1 (by simp [hc]))
        · intro f hf xs2 hx2
          rcases List.mem_cons.1 hf with rfl | hf2
          · rw [hx] at hx2; simp at hx2
          · exact h1d f hf2 xs2 (by rw [hsame f hf2]; exact hx2)
        · intro f hf rows2 hx2
          rcases List.mem_cons.1 hf with rfl | hf2
          · -- the popped 2-D head itself
            have hrows : rows = rows2 := by
              rw [hx] at hx2
              simpa using hx2
            subst hrows
            constructor
            · rw [hun2 f hS0 (hnotgen f _ hx).2]
              exact hLf0
            · intro cs2 hcm2 c hc
              have hcs : cs = cs2 := by
                rw [hcm] at hcm2
                simpa using hcm2
              subst hcs
              have hgc_in : genName f c ∈ cmGen cm f := by
                rw [hgens_eq]
                exact List.mem_map_of_mem _ hc
              have hgnS : genName f c ∉ S := by
                intro hcS
                obtain ⟨v, hv⟩ := hSsome (genName f c)
                  (List.mem_cons.2 (Or.inr hcS))
                simp [hfresh0 _ hgc_in] at hv
              have hgnallS : genName f c ∉ allGen cm S :=
                fun hc2 => hdisj _ hgc_in hc2
              rw [hun2 _ hgnS hgnallS]
              exact hLgen c hc
          · exact h2d f hf2 rows2 (by rw [hsame f hf2]; exact hx2)

/-- Claim C4: in a catalog with unique keys whose snapshot fields are 1-D
arrays or 2-D arrays with well-formed column-mapping entries (and whose
generated names are fresh and mutually distinct), a 2-D non-identifier
field mapped to a list of column indices is unpacked: the call succeeds,
each listed column `col` appears as the 1-D field `{field}_{col}` holding
column `col` of the original array, the original 2-D field is gone, and
every 1-D field keeps its binding. -/
theorem unpack_2d_field_columns (cat : List (String × CatValue))
    (cm : List (String × ColSpec)) (field : String) (rows : List (List RVal))
    (cs : List Nat)
    (hkeys : (cat.map Prod.fst).Nodup)
    (hwf : ∀ f ∈ catFields cat, (∃ xs, dictLookup cat f = some (CatValue.arr1 xs))
      ∨ (∃ rows2 cs2, dictLookup cat f = some (CatValue.arr2 rows2)
          ∧ dictLookup cm f = some (ColSpec.lst cs2)
          ∧ ∀ c ∈ cs2, ∀ r ∈ rows2, c < r.length))
    (hgnd : (allGen cm (catFields cat)).Nodup)
    (hfresh : ∀ g ∈ allGen cm (catFields cat), dictLookup cat g = none)
    (hmem : field ∈ catFields cat)
    (hx : dictLookup cat field = some (CatValue.arr2 rows))
    (hcm : dictLookup cm field = some (ColSpec.lst cs)) :
    ∃ cat2, unpack_catalog_columns cat cm = .ok cat2
      ∧ (∀ c ∈ cs, dictLookup cat2 (genName field c)
          = some (CatValue.arr1 (rows.map (fun r => nthD RVal.nan r c))))
      ∧ dictLookup cat2 field = none
      ∧ (∀ g xs, dictLookup cat g = some (CatValue.arr1 xs) →
          dictLookup cat2 g = some (CatValue.arr1 xs)) := by
  have hSnd : (catFields cat).Nodup := List.Nodup.filter _ hkeys
  obtain ⟨cat2, hok, hun, h1d, h2d⟩ := unpackFold_spec cm (catFields cat) cat
    hkeys hSnd hwf hgnd hfresh
  have h2 := h2d field hmem rows hx
  refine ⟨cat2, ?_, fun c hc => h2.2 cs hcm c hc, h2.1, ?_⟩
  · rw [unpack_catalog_columns]
    exact hok
  · intro g xs hg
    by_cases hgS : g ∈ catFields cat
    · exact h1d g hgS xs hg
    · have hgnotgen : g ∉ allGen cm (catFields cat) := by
        intro hc
        simp [hfresh g hc] at hg
      rw [hun g hgS hgnotgen]
      exact hg

/-- Witness for claim C4 at a concrete catalog: the 2-D field `pos` with
columns `[0, 1]` becomes `pos_0` and `pos_1`, `pos` disappears, and the
1-D fields are untouched. -/
theorem unpack_2d_field_columns_witness :
    (∃ cat2,
      unpack_catalog_columns
          [("subfindID", CatValue.arr1 [RVal.num 0, RVal.num 1]),
           ("pos", CatValue.arr2 [[RVal.num 1, RVal.num 2], [RVal.num 3, RVal.num 4]]),
           ("m", CatValue.arr1 [RVal.num 5, RVal.num 6])]
          [("pos", ColSpec.lst [0, 1])]
        = Except.ok cat2
      ∧ (∀ c ∈ ([0, 1] : List Nat), dictLookup cat2 (genName "pos" c)
          = some (CatValue.arr1
              ([[RVal.num 1, RVal.num 2], [RVal.num 3, RVal.num 4]].map
                (fun r => nthD RVal.nan r c))))
      ∧ dictLookup cat2 "pos" = none
      ∧ (∀ g xs,
          dictLookup
            [("subfindID", CatValue.arr1 [RVal.num 0, RVal.num 1]),
             ("pos", CatValue.arr2 [[RVal.num 1, RVal.num 2], [RVal.num 3, RVal.num 4]]),
             ("m", CatValue.arr1 [RVal.num 5, RVal.num 6])] g
            = some (CatValue.arr1 xs) →
          dictLookup cat2 g = some (CatValue.arr1 xs)))
    ∧ unpack_catalog_columns
        [("subfindID", CatValue.arr1 [RVal.num 0, RVal.num 1]),
         ("pos", CatValue.arr2 [[RVal.num 1, RVal.num 2], [RVal.num 3, RVal.num 4]]),
         ("m", CatValue.arr1 [RVal.num 5, RVal.num 6])]
        [("pos", ColSpec.lst [0, 1])]
      = Except.ok
          [("subfindID", CatValue.arr1 [RVal.num 0, RVal.num 1]),
           ("m", CatValue.arr1 [RVal.num 5, RVal.num 6]),
           ("pos_0", CatValue.arr1 [RVal.num 1, RVal.num 3]),
           ("pos_1", CatValue.arr1 [RVal.num 2, RVal.num 4])] := by
  constructor
  · refine unpack_2d_field_columns _ _ "pos"
      [[RVal.num 1, RVal.num 2], [RVal.num 3, RVal.num 4]] [0, 1]
      (by decide) ?_ (by decide) (by decide) (by decide) (by decide) (by decide)
    intro f hf
    have hcf : catFields
        [("subfindID", CatValue.arr1 [RVal.num 0, RVal.num 1]),
         ("pos", CatValue.arr2 [[RVal.num 1, RVal.num 2], [RVal.num 3, RVal.num 4]]),
         ("m", CatValue.arr1 [RVal.num 5, RVal.num 6])] = ["pos", "m"] := by decide
    rw [hcf] at hf
    rcases List.mem_cons.1 hf with rfl | hf2
    · exact Or.inr ⟨[[RVal.num 1, RVal.num 2], [RVal.num 3, RVal.num 4]], [0, 1],
        by decide, by decide, by decide⟩
    · rcases List.mem_cons.1 hf2 with rfl | hf3
      · exact Or.inl ⟨[RVal.num 5, RVal.num 6], by decide⟩
      · exact absurd hf3 (List.not_mem_nil f)
  · decide

/-- The unpacker's loop hits the scalar-mapped 2-D field after passing any
leading 1-D fields, and the `cols = [cols]` normalisation raises the
NameError for the undefined name `cols`. -/
theorem unpackFold_scalar_cm (cm : List (String × ColSpec)) (field : String)
    (rows : List (List RVal)) (n : Nat) (S2 : List String) :
    ∀ (S1 : List String) (cat : List (String × CatValue)),
      (∀ f ∈ S1, ∃ xs, dictLookup cat f = some (CatValue.arr1 xs)) →
      dictLookup cat field = some (CatValue.arr2 rows) →
      dictLookup cm field = some (ColSpec.single n) →
      unpackFold cm (S1 ++ field :: S2) cat
        = .error (.nameError "name cols is not defined")
  | [], cat, _, hx, hcm => by
      simp [unpackFold, unpackStep, hx, hcm]
  | f :: S1, cat, h1, hx, hcm => by
      obtain ⟨xs, hf⟩ := h1 f (by simp)
      have ih := unpackFold_scalar_cm cm field rows n S2 S1 cat
        (fun g hg => h1 g (by simp [hg])) hx hcm
      simp [unpackFold, unpackStep, hf, ih]

/-- Claim C9: a 2-D field whose column-mapping entry is a single index
(not a list or tuple) can never be unpacked: when the loop reaches it —
any earlier snapshot fields being 1-D — `unpack_catalog_columns` raises
the NameError coming from the `cols = [cols]` line, which reads the
never-defined variable `cols`. -/
theorem unpack_scalar_mapping_nameerror (cat : List (String × CatValue))
    (cm : List (String × ColSpec)) (field : String) (rows : List (List RVal))
    (n : Nat) (S1 S2 : List String)
    (hsplit : catFields cat = S1 ++ field :: S2)
    (h1 : ∀ f ∈ S1, ∃ xs, dictLookup cat f = some (CatValue.arr1 xs))
    (hx : dictLookup cat field = some (CatValue.arr2 rows))
    (hcm : dictLookup cm field = some (ColSpec.single n)) :
    unpack_catalog_columns cat cm
      = .error (.nameError "name cols is not defined") := by
  rw [unpack_catalog_columns, hsplit]
  exact unpackFold_scalar_cm cm field rows n S2 S1 cat h1 hx hcm

/-- Witness for claim C9: a catalog whose only snapshot field is 2-D and
mapped to the single index 0 raises the NameError. -/
theorem unpack_scalar_mapping_nameerror_witness :
    unpack_catalog_columns [("a", CatValue.arr2 [[RVal.num 1]])]
        [("a", ColSpec.single 0)]
      = Except.error (PyError.nameError "name cols is not defined") := by
  refine unpack_scalar_mapping_nameerror
    [("a", CatValue.arr2 [[RVal.num 1]])] [("a", ColSpec.single 0)]
    "a" [[RVal.num 1]] 0 [] [] (by decide) ?_ (by decide) (by decide)
  intro f hf
  exact absurd hf (List.not_mem_nil f)

end Galquench
